import Mathlib

/-!
Shallow embedding of the query/verification engine of `tonlib-rs`.

The embedding covers:
* `TonlibClient::get_account_state`, `get_transactions`, `run` and
  `LastBlock::get_last_block` from `src/lib.rs`;
* the request executor `query` with its bounded not-ready retry loop from
  `src/connection.rs` (error taxonomy from `src/errors.rs`);
* the legacy FFI crate's `LastBlock::get_last_block` from `tonlib/src/lib.rs`;
* the fallback search over cached chain heads, which is described by the
  specification but whose implementation is absent from the sources
  (only its collaborators `query`/`QueryReply` are present).

External collaborators (the `ton_block`/`ton_types` codec crates and the
network transport) are modelled as explicit function parameters: the client
code under verification is generic over their behaviour, and every theorem
quantifies over them (or instantiates them concretely in counterexamples).
-/

set_option autoImplicit false

namespace Tonlib

/-- Wire bytes, modelled as a list of byte values. -/
abbrev Bytes := List Nat

/-- `ton::ton_node::blockidext::BlockIdExt` from `ton_api`: identifies one block.
`rootHash`/`fileHash` model the two 256-bit digests. -/
structure BlockIdExt where
  workchain : Int
  shard : Nat
  seqno : Nat
  rootHash : Nat
  fileHash : Nat
  deriving DecidableEq, Repr

/-- `ton::lite_server::accountid::AccountId`: workchain id plus 256-bit account id. -/
structure AccountId where
  workchain : Int
  id : Nat
  deriving DecidableEq, Repr

/-- A node of the content-addressed cell tree: an opaque data payload plus
child references (already resolved from their positional batch indices). -/
inductive Cell where
  | mk (data : Bytes) (refs : List Cell) : Cell

/-- Payload of a cell. -/
def Cell.data : Cell → Bytes
  | .mk d _ => d

/-- Children of a cell. -/
def Cell.refs : Cell → List Cell
  | .mk _ r => r

/-- `ton_block::AccountStuff`: the decoded live-account record, kept opaque. -/
structure AccountStuff where
  raw : Bytes
  deriving DecidableEq, Repr

/-- `ton_block::Account`: either the empty account variant or a live account. -/
inductive Account where
  | accountNone
  | account (stuff : AccountStuff)
  deriving DecidableEq, Repr

/-- `ton_block::MerkleProof`: the proof cell together with the hash stored in it. -/
structure MerkleProof where
  proof : Cell
  hash : Nat

/-- Handle to the shard state's account dictionary (`ShardAccounts`), kept opaque. -/
structure ShardAccounts where
  raw : Nat
  deriving DecidableEq, Repr

/-- `ton_block::ShardStateUnsplit`: the fields read by the client plus an opaque rest. -/
structure ShardStateUnsplit where
  genLt : Nat
  genTime : Nat
  accountsRaw : ShardAccounts
  deriving DecidableEq, Repr

/-- The committed per-account record returned by the shard-state index lookup. -/
structure ShardAccountInfo where
  lastTransLt : Nat
  lastTransHash : Nat
  deriving DecidableEq, Repr

/-- `ton_block::Transaction`, kept opaque. -/
structure Transaction where
  raw : Nat
  deriving DecidableEq, Repr

/-- `AccountStats` from `src/lib.rs`. -/
structure AccountStats where
  lastTransLt : Nat
  lastTransHash : Nat
  genLt : Nat
  genUtime : Nat
  deriving DecidableEq, Repr

/-- The `TonlibError` enum as referenced by `src/lib.rs` (the revision of the
errors module that `src/lib.rs` compiles against is not among the sources; the
variants are exactly those the file names: `AccountNotFound`,
`InvalidAccountState`, `ExecutionError`, `AdnlError`, plus `UnknownError`). -/
inductive TonlibError where
  | accountNotFound
  | invalidAccountState
  | executionError (code : Int) (message : String)
  | adnlError (message : String)
  | unknownError
  deriving DecidableEq, Repr

/-- The `failure::Error` carried by `ton_types::Result`: either a typed
`TonlibError` converted with `.into()`, a deserialization error propagated by
`?` from the external codec, or a raw transport (`adnl`) error. -/
inductive FailureError where
  | tonlib (e : TonlibError)
  | deser (e : String)
  | adnl (e : String)
  deriving DecidableEq, Repr

/-- Rendering of a `failure::Error` (`e.to_string()`); only injectivity-free
string formation is needed by the client code. -/
def FailureError.toMessage : FailureError → String
  | .tonlib _ => "tonlib error"
  | .deser e => e
  | .adnl e => e

/-- The external codec capability (`ton_types` / `ton_block` decoders): the
client code under `src/` calls these and is generic over their behaviour. -/
structure Codec where
  constructAccount : Bytes → Except String Account
  deserializeCellsTree : Bytes → Except String (List Cell)
  constructMerkleProof : Cell → Except String MerkleProof
  virtualize : Cell → Nat → Cell
  constructShardState : Cell → Except String ShardStateUnsplit
  readAccounts : ShardStateUnsplit → Except String ShardAccounts
  getAccount : ShardAccounts → Nat → Except String (Option ShardAccountInfo)
  constructTransaction : Cell → Except String Transaction
  reprHash : Cell → Nat

/-- `ton::rpc::lite_server::GetAccountState`: the query built in
`get_account_state`, pinning the request to a block id. -/
structure GetAccountStateQuery where
  id : BlockIdExt
  account : AccountId
  deriving DecidableEq, Repr

/-- The `lite_server::AccountState` reply body (`response.state`, `response.proof`). -/
structure GetAccountStateResponse where
  state : Bytes
  proof : Bytes
  deriving DecidableEq, Repr

/-- Lines 49–80 of `src/lib.rs`: everything `get_account_state` does with the
server's reply.  Mirrors the source exactly: empty state bytes are
`AccountNotFound`; a non-live account variant is `AccountNotFound`; the proof
bytes must deserialize to exactly two roots or the error is
`InvalidAccountState`; the merkle proof is decoded from the FIRST root
(`q_roots[0]`), virtualized at depth 1 and decoded as `ShardStateUnsplit`;
the address is looked up in the account index, absence being
`AccountNotFound`.  Every decode failure (`?`) propagates the codec's own
error. -/
def processAccountState (codec : Codec) (address : Nat)
    (response : GetAccountStateResponse) :
    Except FailureError (AccountStats × AccountStuff) :=
  if response.state = [] then .error (.tonlib .accountNotFound)
  else
    match codec.constructAccount response.state with
    | .error e => .error (.deser e)
    | .ok .accountNone => .error (.tonlib .accountNotFound)
    | .ok (.account info) =>
      match codec.deserializeCellsTree response.proof with
      | .error e => .error (.deser e)
      | .ok [root0, _root1] =>
        match codec.constructMerkleProof root0 with
        | .error e => .error (.deser e)
        | .ok merkleProof =>
          match codec.constructShardState (codec.virtualize merkleProof.proof 1) with
          | .error e => .error (.deser e)
          | .ok ss =>
            match codec.readAccounts ss with
            | .error e => .error (.deser e)
            | .ok accounts =>
              match codec.getAccount accounts address with
              | .error e => .error (.deser e)
              | .ok none => .error (.tonlib .accountNotFound)
              | .ok (some shardInfo) =>
                .ok
                  ({ lastTransLt := shardInfo.lastTransLt
                     lastTransHash := shardInfo.lastTransHash
                     genLt := ss.genLt
                     genUtime := ss.genTime },
                   info)
      | .ok _ => .error (.tonlib .invalidAccountState)

/-- `TonlibClient::get_account_state` (`src/lib.rs` lines 36–80): obtain the
pinned block id, issue the query built from it through `run` (modelled by the
`server` parameter, which already includes the reply downcast), then process
the reply.  Note that after building the query the block id is never consulted
again. -/
def getAccountState (codec : Codec)
    (server : GetAccountStateQuery → Except FailureError GetAccountStateResponse)
    (lastBlockResult : Except TonlibError BlockIdExt)
    (account : AccountId) :
    Except FailureError (AccountStats × AccountStuff) :=
  match lastBlockResult with
  | .error e => .error (.tonlib e)
  | .ok id =>
    match server { id := id, account := account } with
    | .error e => .error e
    | .ok response => processAccountState codec account.id response

/-- The three shapes a transport-level reply can downcast to: the expected
typed reply, a `ton::lite_server::Error { code, message }`, or neither. -/
inductive RawResponse (α : Type) where
  | reply (a : α)
  | liteServerError (code : Int) (message : String)
  | garbage
  deriving DecidableEq, Repr

/-- Lines 141–151 of `src/lib.rs`: downcast the transport reply; a
`lite_server::Error` becomes `ExecutionError { code, message }`, anything else
undecodable becomes `UnknownError`. -/
def downcastResult {α : Type} : RawResponse α → Except FailureError α
  | .reply a => .ok a
  | .liteServerError code message => .error (.tonlib (.executionError code message))
  | .garbage => .error (.tonlib .unknownError)

/-- Observable actions of `TonlibClient::run`: sending the query over the
locked client, pinging it, and reconnecting. -/
inductive RunEvent where
  | querySend
  | ping
  | reconnect
  deriving DecidableEq, Repr

/-- Environment for one execution of `TonlibClient::run`: what the first query
send, the ping, the reconnect and the second query send would each return.
Errors are raw transport (`failure::Error`) messages. -/
structure RunEnv (α : Type) where
  query1 : Except String (RawResponse α)
  pingResult : Except String Unit
  connectResult : Except String Unit
  query2 : Except String (RawResponse α)

/-- `TonlibClient::run` (`src/lib.rs` lines 117–152): send the query; on
failure ping the connection — if the ping succeeds return the original error,
otherwise reconnect (propagating a reconnect failure) and resend the query
exactly once, propagating its failure.  The successful raw reply is then
downcast.  The returned list records the actions performed, in order. -/
def run {α : Type} (env : RunEnv α) : List RunEvent × Except FailureError α :=
  match env.query1 with
  | .ok result => ([.querySend], downcastResult result)
  | .error e =>
    match env.pingResult with
    | .ok _ => ([.querySend, .ping], .error (.adnl e))
    | .error _ =>
      match env.connectResult with
      | .error ce => ([.querySend, .ping, .reconnect], .error (.adnl ce))
      | .ok _ =>
        match env.query2 with
        | .error e2 => ([.querySend, .ping, .reconnect, .querySend], .error (.adnl e2))
        | .ok result => ([.querySend, .ping, .reconnect, .querySend], downcastResult result)

/-- The per-cell body of the `get_transactions` result loop: pair each cell's
content digest (`repr_hash`, computed before the cell is consumed) with the
transaction decoded from it, propagating the first decode failure. -/
def decodeTransactions (codec : Codec) : List Cell → Except FailureError (List (Nat × Transaction))
  | [] => .ok []
  | c :: rest =>
    match codec.constructTransaction c with
    | .error e => .error (.deser e)
    | .ok tx =>
      match decodeTransactions codec rest with
      | .error e => .error e
      | .ok tail => .ok ((codec.reprHash c, tx) :: tail)

/-- `TonlibClient::get_transactions` (`src/lib.rs` lines 82–110), applied to
the outcome of `run` for the `GetTransactions` query: an empty wire payload is
`Ok(vec![])`; otherwise the payload is deserialized as a cell batch and the
cells are decoded in reverse order (wire order newest-first). -/
def getTransactions (codec : Codec) (runResult : Except FailureError Bytes) :
    Except FailureError (List (Nat × Transaction)) :=
  match runResult with
  | .error e => .error e
  | .ok wire =>
    if wire = [] then .ok []
    else
      match codec.deserializeCellsTree wire with
      | .error e => .error (.deser e)
      | .ok cells => decodeTransactions codec cells.reverse

/-- State of `LastBlock`'s cache cell (`src/lib.rs` line 215): optionally a
cached result (success or error) with the instant it was stored. -/
abbrev LastBlockState := Option (Except TonlibError BlockIdExt × Nat)

/-- `LastBlock::get_last_block` (`src/lib.rs` lines 227–244): under the lock,
if a cached entry exists and is younger than the threshold, return its clone
without contacting the server; otherwise fetch (`GetMasterchainInfo` through
`run`, errors mapped to `AdnlError(e.to_string())`), store the result with the
current instant, and return it.  Returns the result, the new cache state, and
whether a network request was issued.  `Instant` subtraction is saturating,
matching monotonic-clock semantics. -/
def getLastBlock (threshold : Nat) (state : LastBlockState) (now : Nat)
    (fetch : Except FailureError BlockIdExt) :
    Except TonlibError BlockIdExt × LastBlockState × Bool :=
  match state with
  | some (result, last) =>
    if now - last < threshold then (result, some (result, last), false)
    else
      let newId := fetch.mapError fun e => TonlibError.adnlError e.toMessage
      (newId, some (newId, now), true)
  | none =>
    let newId := fetch.mapError fun e => TonlibError.adnlError e.toMessage
    (newId, some (newId, now), true)

namespace Ffi

/-- `LastBlock::get_last_block` of the legacy FFI crate (`tonlib/src/lib.rs`
lines 58–74).  Identical shape to the pooled client's version except that its
staleness guard is `now.duration_since(*last) >= self.threshold` — it returns
the cached value when the entry is at least `threshold` old and fetches
otherwise — and its fetch error is already a `TonlibError`. -/
def getLastBlock (threshold : Nat) (state : LastBlockState) (now : Nat)
    (fetch : Except TonlibError BlockIdExt) :
    Except TonlibError BlockIdExt × LastBlockState × Bool :=
  match state with
  | some (result, last) =>
    if threshold ≤ now - last then (result, some (result, last), false)
    else (fetch, some (fetch, now), true)
  | none => (fetch, some (fetch, now), true)

end Ffi

namespace Conn

/-- The `TonlibError` enum of `src/errors.rs` (the revision used by
`src/connection.rs`). -/
inductive TonlibError where
  | invalidAddress
  | accountNotFound
  | connectionError
  | failedToSerialize
  | liteServer (code : Int) (message : String)
  | invalidAccountStateProof
  | invalidBlock
  | unknown
  | notReady
  deriving DecidableEq, Repr

/-- `QueryReply` from `src/connection.rs`: data, or the server is not ready. -/
inductive QueryReply (α : Type) where
  | data (a : α)
  | notReady
  deriving DecidableEq, Repr

/-- Observable actions of the request executor: a send over the pooled
connection, or the inter-attempt sleep (milliseconds). -/
inductive Event where
  | send
  | sleepMs (ms : Nat)
  deriving DecidableEq, Repr

/-- The retry loop of `query` (`src/connection.rs` lines 20–40).  `conn n` is
the transport's answer to the `n`-th send (`.error` models a failed
`connection.query`).  `MAX_RETIRES = 3`, `RETRY_INTERVAL = 100`,
`ERR_NOT_READY = 651` as in the source; `retries` counts up from 0 and a
not-ready reply retries while `retries < 3`, sleeping 100 ms first. -/
def queryLoop {α : Type} (conn : Nat → Except Unit (RawResponse α))
    (sent retries : Nat) : List Event × Except TonlibError (QueryReply α) :=
  match conn sent with
  | .error _ => ([.send], .error .connectionError)
  | .ok (.reply a) => ([.send], .ok (.data a))
  | .ok .garbage => ([.send], .error .unknown)
  | .ok (.liteServerError code message) =>
    if code = 651 then
      if retries < 3 then
        let rest := queryLoop conn (sent + 1) (retries + 1)
        (Event.send :: Event.sleepMs 100 :: rest.1, rest.2)
      else ([.send], .ok .notReady)
    else ([.send], .error (.liteServer code message))
  termination_by 4 - retries
  decreasing_by simp_wf; omega

/-- `query` from `src/connection.rs` (lines 7–41): serialize the request
(`FailedToSerialize` on failure, no send at all), then enter the retry loop. -/
def query {α : Type} (serialized : Except Unit Bytes)
    (conn : Nat → Except Unit (RawResponse α)) :
    List Event × Except TonlibError (QueryReply α) :=
  match serialized with
  | .error _ => ([], .error .failedToSerialize)
  | .ok _ => queryLoop conn 0 0

end Conn

namespace Spec

/-- Modelled from the spec: the inner loop of the account-state fallback
search (§4.5 steps 1–2).  The `get_account_state` revision that consumes
`QueryReply`/`last_cached_blocks()` is missing from the sources (only its
collaborators in `connection.rs` are present), so the loop follows the spec's
words: iterate the history of cached block ids (most-recent-first), consider
only ids strictly older than the pinned head (ordering is by sequence number),
reissue the query against each, and stop at the first `Data`. -/
def fallbackLoop {α : Type} (queryAt : BlockIdExt → Conn.QueryReply α)
    (lastBlock : BlockIdExt) : List BlockIdExt → Conn.QueryReply α
  | [] => .notReady
  | b :: rest =>
    if b.seqno < lastBlock.seqno then
      match queryAt b with
      | .data r => .data r
      | .notReady => fallbackLoop queryAt lastBlock rest
    else fallbackLoop queryAt lastBlock rest

/-- Modelled from the spec: the account-state fallback search (§4.5 steps
1–2), missing from the sources.  Query at the pinned head first; only if that
is `NotReady` walk the cached history; if the history is exhausted without
data the overall outcome is `NotReady`. -/
def fallbackSearch {α : Type} (queryAt : BlockIdExt → Conn.QueryReply α)
    (lastBlock : BlockIdExt) (history : List BlockIdExt) : Conn.QueryReply α :=
  match queryAt lastBlock with
  | .data r => .data r
  | .notReady => fallbackLoop queryAt lastBlock history

end Spec

/-! Concrete fixtures used by witnesses and counterexamples. -/

/-- A cell whose payload marks it as decodable by the fixture codec. -/
def cellGood : Cell := .mk [1] []

/-- A cell whose payload makes the fixture codec's merkle-proof decoder fail. -/
def cellBad : Cell := .mk [2] []

/-- A fixed live-account record. -/
def stuffFixture : AccountStuff := { raw := [7] }

/-- A fixed shard state with `gen_lt = 5`, `gen_utime = 6`. -/
def ssFixture : ShardStateUnsplit := { genLt := 5, genTime := 6, accountsRaw := { raw := 0 } }

/-- A fixed committed account record with `last_trans_lt = 3`, hash `4`. -/
def infoFixture : ShardAccountInfo := { lastTransLt := 3, lastTransHash := 4 }

/-- The stats assembled from `ssFixture` and `infoFixture`. -/
def statsFixture : AccountStats :=
  { lastTransLt := 3, lastTransHash := 4, genLt := 5, genUtime := 6 }

/-- A concrete codec in which every decoder succeeds, except that a cell with
payload `[2]` fails to decode as a `MerkleProof`.  The cell batch decoder turns
each wire byte into one root cell; the content digest of a cell is its first
payload byte. -/
def codecOk : Codec where
  constructAccount _ := .ok (.account stuffFixture)
  deserializeCellsTree bytes := .ok (bytes.map fun b => Cell.mk [b] [])
  constructMerkleProof c :=
    if c.data = [2] then .error "merkle proof decode failed" else .ok { proof := c, hash := 0 }
  virtualize c _ := c
  constructShardState _ := .ok ssFixture
  readAccounts ss := .ok ss.accountsRaw
  getAccount _ _ := .ok (some infoFixture)
  constructTransaction c := .ok { raw := c.data.headD 0 }
  reprHash c := c.data.headD 0

/-- `codecOk` with an account-index lookup that fails to decode (descent into
a pruned branch). -/
def codecPruned : Codec :=
  { codecOk with getAccount := fun _ _ => .error "pruned branch" }

/-- A pinned block id whose committed root hash is `99`. -/
def blockFixture : BlockIdExt :=
  { workchain := -1, shard := 0, seqno := 100, rootHash := 99, fileHash := 98 }

/-- A different block id, the one a refresh of the chain-head cache returns. -/
def blockFixture2 : BlockIdExt :=
  { workchain := 0, shard := 0, seqno := 7, rootHash := 1, fileHash := 2 }

/-- The queried account. -/
def acctFixture : AccountId := { workchain := -1, id := 42 }

/-- A server reply whose state bytes are non-empty and whose proof bytes
deserialize to two merkle-decodable roots. -/
def respOk : GetAccountStateResponse := { state := [9], proof := [1, 1] }

/-- A block id at a given sequence number (fallback ordering is by seqno). -/
def blockAtSeqno (n : Nat) : BlockIdExt :=
  { workchain := -1, shard := 0, seqno := n, rootHash := 0, fileHash := 0 }

/-- A query behaviour that has data only at the block of sequence number 1. -/
def queryFix : BlockIdExt → Conn.QueryReply Nat :=
  fun b => if b.seqno = 1 then .data 7 else .notReady

end Tonlib

deriving instance DecidableEq for Except

namespace Tonlib

/-! Theorems. -/

/-- Claim C1 (amended): `get_account_state` performs no verification of the
proof against the block id obtained in step 1/2 — for a fixed server response
the outcome is identical whatever root hash that block id commits to; the
account record is exposed as soon as the decode pipeline succeeds.  Any
hash checking is internal to the external `MerkleProof` decoder and does not
involve the pinned block. -/
theorem c1_theorem (codec : Codec)
    (resp : Except FailureError GetAccountStateResponse)
    (account : AccountId) (b : BlockIdExt) (h' : Nat) :
    getAccountState codec (fun _ => resp) (.ok b) account =
      getAccountState codec (fun _ => resp) (.ok { b with rootHash := h' }) account := rfl

/-- Claim C1 counterexample: with a server response whose decode pipeline
succeeds, `get_account_state` returns the `(AccountStats, account record)`
pair even though hashing the virtualized proof root through the codec's
hashing rule gives `1`, which differs from the expected hash `99` committed by
the pinned block id — no rejection happens, refuting the claim that the pair
is only returned after that comparison succeeds. -/
theorem c1_counterexample :
    getAccountState codecOk (fun _ => .ok respOk) (.ok blockFixture) acctFixture =
      .ok (statsFixture, stuffFixture)
    ∧ codecOk.reprHash (codecOk.virtualize cellGood 1) = 1
    ∧ blockFixture.rootHash = 99 := ⟨rfl, rfl, rfl⟩

/-- Claim C3: once the reply carries a non-empty state decoding to a live
account, a proof payload whose cell batch deserializes to any number of roots
other than two makes `get_account_state` fail with the invalid-account-state
error (named `InvalidAccountStateProof` in the spec) and return no account
data. -/
theorem c3_theorem (codec : Codec) (address : Nat) (resp : GetAccountStateResponse)
    (info : AccountStuff) (roots : List Cell)
    (hstate : resp.state ≠ [])
    (hacc : codec.constructAccount resp.state = .ok (.account info))
    (hroots : codec.deserializeCellsTree resp.proof = .ok roots)
    (hlen : roots.length ≠ 2) :
    processAccountState codec address resp = .error (.tonlib .invalidAccountState) := by
  rcases roots with _ | ⟨r0, _ | ⟨r1, _ | ⟨r2, rest⟩⟩⟩
  · simp [processAccountState, hstate, hacc, hroots]
  · simp [processAccountState, hstate, hacc, hroots]
  · simp at hlen
  · simp [processAccountState, hstate, hacc, hroots]

/-- Claim C3 witness: a proof payload of a single byte deserializes to one
root under the fixture codec, and the call fails with the
invalid-account-state error. -/
theorem c3_witness :
    processAccountState codecOk 42 { state := [9], proof := [1] } =
      .error (.tonlib .invalidAccountState) :=
  c3_theorem codecOk 42 { state := [9], proof := [1] } stuffFixture [cellGood]
    (by decide) rfl rfl (by decide)

/-- Claim C6 (code bug in the FFI crate): the legacy `LastBlock::get_last_block`
of `tonlib/src/lib.rs`, evaluated at a cache entry of age `0` with threshold
`5`, issues a network refresh and overwrites the fresh cached value — its
staleness guard is inverted (`>= threshold` returns the cache) relative to the
claim and to the corrected guard in `src/lib.rs`. -/
theorem c6_theorem :
    Ffi.getLastBlock 5 (some (.ok blockFixture, 10)) 10 (.ok blockFixture2) =
      (.ok blockFixture2, some (.ok blockFixture2, 10), true) := rfl

/-- Claim C9: `TonlibClient::run` sends the query at most twice and reconnects
at most once; a first-query failure triggers a ping; a successful ping returns
the original error with no resend; only a failed ping leads to a reconnect and
a single resend, whose failure is returned without further retries. -/
theorem c9_theorem {α : Type} (env : RunEnv α) (e pe e2 : String)
    (cr : Except String Unit) (q2 : Except String (RawResponse α)) (r : RawResponse α) :
    ((run env).1.count .querySend ≤ 2 ∧ (run env).1.count .reconnect ≤ 1)
    ∧ run ({ query1 := .error e, pingResult := .ok (), connectResult := cr,
             query2 := q2 } : RunEnv α) =
        ([.querySend, .ping], .error (.adnl e))
    ∧ run ({ query1 := .error e, pingResult := .error pe, connectResult := .ok (),
             query2 := .error e2 } : RunEnv α) =
        ([.querySend, .ping, .reconnect, .querySend], .error (.adnl e2))
    ∧ run ({ query1 := .error e, pingResult := .error pe, connectResult := .ok (),
             query2 := .ok r } : RunEnv α) =
        ([.querySend, .ping, .reconnect, .querySend], downcastResult r) := by
  refine ⟨?_, rfl, rfl, rfl⟩
  rcases env with ⟨q1, p, c, q2'⟩
  cases q1 <;> cases p <;> cases c <;> cases q2' <;> simp [run]

/-- Claim C10: the chain-head cache stores failed refreshes too — a failing
fetch is stored (as `AdnlError` of its message) with the current instant, both
from an empty cache and from a stale entry; and any later call within the
staleness threshold returns a clone of that stored error without issuing a
network request, leaving the cache untouched. -/
theorem c10_theorem (threshold t now now2 : Nat) (e : FailureError)
    (x : TonlibError) (f2 : Except FailureError BlockIdExt)
    (hfresh : now2 - now < threshold) :
    getLastBlock threshold none now (.error e) =
      (.error (.adnlError e.toMessage), some (.error (.adnlError e.toMessage), now), true)
    ∧ (∀ r : Except TonlibError BlockIdExt, ¬(now - t < threshold) →
        getLastBlock threshold (some (r, t)) now (.error e) =
          (.error (.adnlError e.toMessage), some (.error (.adnlError e.toMessage), now), true))
    ∧ getLastBlock threshold (some (.error x, now)) now2 f2 =
        (.error x, some (.error x, now), false) := by
  refine ⟨rfl, ?_, ?_⟩
  · intro r h
    simp [getLastBlock, if_neg h, Except.mapError]
  · simp [getLastBlock, if_pos hfresh]

/-- Claim C5: over a connection that answers every send with the server-side
not-ready status 651, the request executor's `query` performs exactly 3
retries, each preceded by the fixed 100 ms sleep — 4 sends in total — and then
returns `QueryReply::NotReady` as a successful `Ok` value, not as an error. -/
theorem c5_theorem {α : Type} (conn : Nat → Except Unit (RawResponse α))
    (message : Nat → String) (bytes : Bytes)
    (h : ∀ n, conn n = .ok (.liteServerError 651 (message n))) :
    Conn.query (.ok bytes) conn =
      ([.send, .sleepMs 100, .send, .sleepMs 100, .send, .sleepMs 100, .send],
        .ok (.notReady : Conn.QueryReply α)) := by
  simp [Conn.query, Conn.queryLoop, h]

/-- Claim C5 witness: the always-not-ready connection yields the exact
four-send, three-sleep trace and an `Ok NotReady` outcome. -/
theorem c5_witness :
    Conn.query (.ok []) (fun _ => .ok (.liteServerError 651 "not ready") :
        Nat → Except Unit (RawResponse Nat)) =
      ([.send, .sleepMs 100, .send, .sleepMs 100, .send, .sleepMs 100, .send],
        .ok .notReady) :=
  c5_theorem (fun _ => .ok (.liteServerError 651 "not ready")) (fun _ => "not ready") []
    (fun _ => rfl)

/-- Claim C2 counterexample: the proof bytes deserialize to exactly two roots,
the SECOND root fails to decode as a `MerkleProof`, and yet `get_account_state`
succeeds — so the MerkleProof is not read from the second root, and its decode
failure does not produce `InvalidAccountStateProof`, refuting the claim as
stated (the code reads `q_roots[0]`, the first root). -/
theorem c2_counterexample :
    codecOk.deserializeCellsTree [1, 2] = .ok [cellGood, cellBad]
    ∧ codecOk.constructMerkleProof cellBad = .error "merkle proof decode failed"
    ∧ processAccountState codecOk 42 { state := [9], proof := [1, 2] } =
        .ok (statsFixture, stuffFixture) := ⟨rfl, rfl, rfl⟩

/-- Claim C2 (amended): after the proof bytes deserialize to exactly two
roots, it is the FIRST root that is interpreted as the MerkleProof,
virtualized with the top-level node fixed at depth 1, and decoded as the
unsplit-shard-state structure; a decode failure at either stage propagates the
codec's deserialization error (not `InvalidAccountStateProof`), and the second
root is ignored — replacing it never changes the outcome. -/
theorem c2_theorem (codec : Codec) (address : Nat) (resp : GetAccountStateResponse)
    (info : AccountStuff) (r0 r1 : Cell) (e : String)
    (hstate : resp.state ≠ [])
    (hacc : codec.constructAccount resp.state = .ok (.account info))
    (hroots : codec.deserializeCellsTree resp.proof = .ok [r0, r1]) :
    (codec.constructMerkleProof r0 = .error e →
      processAccountState codec address resp = .error (.deser e))
    ∧ (∀ mp : MerkleProof, codec.constructMerkleProof r0 = .ok mp →
        codec.constructShardState (codec.virtualize mp.proof 1) = .error e →
          processAccountState codec address resp = .error (.deser e))
    ∧ (∀ resp2 : GetAccountStateResponse, resp2.state = resp.state →
        ∀ r1' : Cell, codec.deserializeCellsTree resp2.proof = .ok [r0, r1'] →
          processAccountState codec address resp2 = processAccountState codec address resp) := by
  refine ⟨?_, ?_, ?_⟩
  · intro hmp
    simp [processAccountState, hstate, hacc, hroots, hmp]
  · intro mp hmp hss
    simp [processAccountState, hstate, hacc, hroots, hmp, hss]
  · intro resp2 hsame r1' hroots2
    simp [processAccountState, hstate, hsame ▸ hstate, hacc, hsame ▸ hacc, hroots, hroots2, hsame]

/-- Claim C2 witness: with the bad root in first position the call fails and
the propagated error is the codec's deserialization error. -/
theorem c2_witness :
    processAccountState codecOk 42 { state := [9], proof := [2, 1] } =
      .error (.deser "merkle proof decode failed") :=
  (c2_theorem codecOk 42 { state := [9], proof := [2, 1] } stuffFixture cellBad cellGood
    "merkle proof decode failed" (by decide) rfl rfl).1 rfl

/-- Helper: when every cell of a list decodes, the transaction loop returns
the digest/record pair for each cell in the same order. -/
theorem decodeTransactions_ok (codec : Codec) (dec : Cell → Transaction) :
    ∀ l : List Cell, (∀ c ∈ l, codec.constructTransaction c = .ok (dec c)) →
      decodeTransactions codec l = .ok (l.map fun c => (codec.reprHash c, dec c))
  | [], _ => rfl
  | c :: rest, h => by
    have hc := h c (List.mem_cons_self c rest)
    have hrest := decodeTransactions_ok codec dec rest fun d hd => h d (List.mem_cons_of_mem c hd)
    simp [decodeTransactions, hc, hrest]

/-- Claim C8: `get_transactions` maps an empty wire payload to `Ok []`, and a
non-empty payload whose cell batch deserializes and whose cells all decode to
the list pairing each cell's content digest with its decoded transaction, in
reverse batch order (wire newest-first becomes oldest-first). -/
theorem c8_theorem (codec : Codec) (wire : Bytes) (cells : List Cell)
    (dec : Cell → Transaction)
    (hw : wire ≠ [])
    (hcells : codec.deserializeCellsTree wire = .ok cells)
    (hdec : ∀ c ∈ cells, codec.constructTransaction c = .ok (dec c)) :
    getTransactions codec (.ok []) = .ok []
    ∧ getTransactions codec (.ok wire) =
        .ok (cells.reverse.map fun c => (codec.reprHash c, dec c)) := by
  refine ⟨rfl, ?_⟩
  have hrev : ∀ c ∈ cells.reverse, codec.constructTransaction c = .ok (dec c) := by
    intro c hc
    exact hdec c (List.mem_reverse.mp hc)
  simp [getTransactions, hw, hcells, decodeTransactions_ok codec dec cells.reverse hrev]

/-- Claim C8 witness: a two-byte payload deserializes to two cells and yields
the reversed digest/transaction pairs; an empty payload yields `Ok []`. -/
theorem c8_witness :
    getTransactions codecOk (.ok []) = .ok []
    ∧ getTransactions codecOk (.ok [1, 2]) =
        .ok [(2, { raw := 2 }), (1, { raw := 1 })] :=
  c8_theorem codecOk [1, 2] [cellGood, cellBad] (fun c => { raw := c.data.headD 0 })
    (by decide) rfl (by intro c hc; fin_cases hc <;> rfl)

/-- Claim C7 counterexample: when the account-index lookup fails to decode
(pruned branch), `get_account_state` propagates the codec's deserialization
error, which is not the `InvalidAccountStateProof` error the claim requires
for this case. -/
theorem c7_counterexample :
    codecPruned.getAccount ssFixture.accountsRaw 42 = .error "pruned branch"
    ∧ processAccountState codecPruned 42 { state := [9], proof := [1, 1] } =
        .error (.deser "pruned branch")
    ∧ (.error (.deser "pruned branch") :
          Except FailureError (AccountStats × AccountStuff)) ≠
        .error (.tonlib .invalidAccountState) := ⟨rfl, rfl, by decide⟩

/-- Claim C7 (amended): `get_account_state` fails with `AccountNotFound` in
exactly these cases — empty state bytes, state bytes decoding to the non-live
account variant, or a proven account index that does not contain the queried
address; a decode failure during the index lookup instead propagates the
codec's deserialization error (not `InvalidAccountStateProof`). -/
theorem c7_theorem (codec : Codec) (address : Nat) (resp : GetAccountStateResponse) :
    (processAccountState codec address resp = .error (.tonlib .accountNotFound) ↔
      resp.state = []
      ∨ codec.constructAccount resp.state = .ok .accountNone
      ∨ ∃ (info : AccountStuff) (r0 r1 : Cell) (mp : MerkleProof)
          (ss : ShardStateUnsplit) (accounts : ShardAccounts),
          codec.constructAccount resp.state = .ok (.account info) ∧
          codec.deserializeCellsTree resp.proof = .ok [r0, r1] ∧
          codec.constructMerkleProof r0 = .ok mp ∧
          codec.constructShardState (codec.virtualize mp.proof 1) = .ok ss ∧
          codec.readAccounts ss = .ok accounts ∧
          codec.getAccount accounts address = .ok none)
    ∧ ∀ (e : String) (info : AccountStuff) (r0 r1 : Cell) (mp : MerkleProof)
        (ss : ShardStateUnsplit) (accounts : ShardAccounts),
        resp.state ≠ [] →
        codec.constructAccount resp.state = .ok (.account info) →
        codec.deserializeCellsTree resp.proof = .ok [r0, r1] →
        codec.constructMerkleProof r0 = .ok mp →
        codec.constructShardState (codec.virtualize mp.proof 1) = .ok ss →
        codec.readAccounts ss = .ok accounts →
        codec.getAccount accounts address = .error e →
        processAccountState codec address resp = .error (.deser e) := by
  constructor
  · constructor
    · intro h
      by_cases hs : resp.state = []
      · exact Or.inl hs
      cases ha : codec.constructAccount resp.state with
      | error e => simp [processAccountState, hs, ha] at h
      | ok acc =>
        cases acc with
        | accountNone => exact Or.inr (Or.inl rfl)
        | account info =>
          cases hd : codec.deserializeCellsTree resp.proof with
          | error e => simp [processAccountState, hs, ha, hd] at h
          | ok roots =>
            rcases roots with _ | ⟨r0, _ | ⟨r1, _ | ⟨r2, rest⟩⟩⟩
            · simp [processAccountState, hs, ha, hd] at h
            · simp [processAccountState, hs, ha, hd] at h
            · cases hm : codec.constructMerkleProof r0 with
              | error e => simp [processAccountState, hs, ha, hd, hm] at h
              | ok mp =>
                cases hss : codec.constructShardState (codec.virtualize mp.proof 1) with
                | error e => simp [processAccountState, hs, ha, hd, hm, hss] at h
                | ok ss =>
                  cases hra : codec.readAccounts ss with
                  | error e => simp [processAccountState, hs, ha, hd, hm, hss, hra] at h
                  | ok accounts =>
                    cases hg : codec.getAccount accounts address with
                    | error e => simp [processAccountState, hs, ha, hd, hm, hss, hra, hg] at h
                    | ok found =>
                      cases found with
                      | none =>
                        exact Or.inr (Or.inr ⟨info, r0, r1, mp, ss, accounts, rfl, rfl, hm, hss, hra, hg⟩)
                      | some si => simp [processAccountState, hs, ha, hd, hm, hss, hra, hg] at h
            · simp [processAccountState, hs, ha, hd] at h
    · rintro (hs | ha | ⟨info, r0, r1, mp, ss, accounts, ha, hd, hm, hss, hra, hg⟩)
      · simp [processAccountState, hs]
      · by_cases hs : resp.state = []
        · simp [processAccountState, hs]
        · simp [processAccountState, hs, ha]
      · by_cases hs : resp.state = []
        · simp [processAccountState, hs]
        · simp [processAccountState, hs, ha, hd, hm, hss, hra, hg]
  · intro e info r0 r1 mp ss accounts hs ha hd hm hss hra hg
    simp [processAccountState, hs, ha, hd, hm, hss, hra, hg]

/-- Claim C7 witness: absence of the address in the proven index yields
`AccountNotFound`, by the characterization applied to a codec whose lookup
returns `None`. -/
theorem c7_witness :
    processAccountState { codecOk with getAccount := fun _ _ => .ok none } 42
      { state := [9], proof := [1, 1] } = .error (.tonlib .accountNotFound) :=
  (c7_theorem { codecOk with getAccount := fun _ _ => .ok none } 42
      { state := [9], proof := [1, 1] }).1.mpr
    (Or.inr (Or.inr ⟨stuffFixture, cellGood, cellGood, { proof := cellGood, hash := 0 },
      ssFixture, ssFixture.accountsRaw, rfl, rfl, rfl, rfl, rfl, rfl⟩))

/-- Helper: the fallback loop yields `NotReady` exactly when every strictly
older candidate in the history answers `NotReady`. -/
theorem fallbackLoop_notReady_iff {α : Type} (queryAt : BlockIdExt → Conn.QueryReply α)
    (lb : BlockIdExt) :
    ∀ hist : List BlockIdExt,
      Spec.fallbackLoop queryAt lb hist = .notReady ↔
        ∀ b ∈ hist, b.seqno < lb.seqno → queryAt b = .notReady
  | [] => by simp [Spec.fallbackLoop]
  | b :: rest => by
    have ih := fallbackLoop_notReady_iff queryAt lb rest
    by_cases hb : b.seqno < lb.seqno
    · cases hq : queryAt b with
      | data r => simp [Spec.fallbackLoop, hb, hq]
      | notReady => simp [Spec.fallbackLoop, hb, hq, ih]
    · simp [Spec.fallbackLoop, hb, ih]

/-- Helper: skipping non-older candidates first, the loop reaches the first
older candidate with data and returns that data. -/
theorem fallbackLoop_reaches {α : Type} (queryAt : BlockIdExt → Conn.QueryReply α)
    (lb : BlockIdExt) (r : α) :
    ∀ (pre : List BlockIdExt) (b : BlockIdExt) (post : List BlockIdExt),
      (∀ c ∈ pre, queryAt c = .notReady) → b.seqno < lb.seqno → queryAt b = .data r →
        Spec.fallbackLoop queryAt lb (pre ++ b :: post) = .data r
  | [], b, post, _, hb, hr => by simp [Spec.fallbackLoop, hb, hr]
  | c :: pre, b, post, hpre, hb, hr => by
    have ih := fallbackLoop_reaches queryAt lb r pre b post
      (fun d hd => hpre d (List.mem_cons_of_mem c hd)) hb hr
    by_cases hc : c.seqno < lb.seqno
    · simp [Spec.fallbackLoop, hc, hpre c (List.mem_cons_self c pre), ih]
    · simp [Spec.fallbackLoop, hc, ih]

/-- Helper: the fallback loop only ever consults candidates strictly older
than the pinned head, so filtering the history to those is invisible to it. -/
theorem fallbackLoop_filter {α : Type} (queryAt : BlockIdExt → Conn.QueryReply α)
    (lb : BlockIdExt) :
    ∀ hist : List BlockIdExt,
      Spec.fallbackLoop queryAt lb hist =
        Spec.fallbackLoop queryAt lb (hist.filter fun c => c.seqno < lb.seqno)
  | [] => rfl
  | b :: rest => by
    have ih := fallbackLoop_filter queryAt lb rest
    by_cases hb : b.seqno < lb.seqno
    · simp [Spec.fallbackLoop, List.filter_cons, hb, ih]
    · simp [Spec.fallbackLoop, List.filter_cons, hb, ih]

/-- Claim C4: the fallback search answers directly when the pinned head has
data; it is `NotReady` exactly when the head and every strictly older cached
candidate are `NotReady` (history exhausted without data); and when the head
is `NotReady` it returns the data of the first strictly-older candidate, in
most-recent-first order, that has data. -/
theorem c4_theorem {α : Type} (queryAt : BlockIdExt → Conn.QueryReply α)
    (lastBlock : BlockIdExt) (history : List BlockIdExt) :
    (∀ r : α, queryAt lastBlock = .data r →
      Spec.fallbackSearch queryAt lastBlock history = .data r)
    ∧ (Spec.fallbackSearch queryAt lastBlock history = .notReady ↔
        queryAt lastBlock = .notReady ∧
          ∀ b ∈ history, b.seqno < lastBlock.seqno → queryAt b = .notReady)
    ∧ (∀ (r : α) (pre : List BlockIdExt) (b : BlockIdExt) (post : List BlockIdExt),
        queryAt lastBlock = .notReady →
        history.filter (fun c => c.seqno < lastBlock.seqno) = pre ++ b :: post →
        (∀ c ∈ pre, queryAt c = .notReady) →
        queryAt b = .data r →
        Spec.fallbackSearch queryAt lastBlock history = .data r) := by
  refine ⟨?_, ?_, ?_⟩
  · intro r h
    simp [Spec.fallbackSearch, h]
  · cases hq : queryAt lastBlock with
    | data r => simp [Spec.fallbackSearch, hq]
    | notReady =>
      simp only [Spec.fallbackSearch, hq, true_and]
      exact fallbackLoop_notReady_iff queryAt lastBlock history
  · intro r pre b post hq hfilter hpre hr
    have hbmem : b ∈ history.filter fun c => c.seqno < lastBlock.seqno := by
      rw [hfilter]
      exact List.mem_append_right pre (List.mem_cons_self b post)
    have hb : b.seqno < lastBlock.seqno := by
      have := List.of_mem_filter hbmem
      simpa using this
    simp only [Spec.fallbackSearch, hq]
    rw [fallbackLoop_filter, hfilter]
    exact fallbackLoop_reaches queryAt lastBlock r pre b post hpre hb hr

/-- Claim C4 witness: with a history of four cached ids of which the newest is
not older than the head and the two next-newest answer `NotReady`, the search
returns the data of the oldest candidate. -/
theorem c4_witness :
    Spec.fallbackSearch queryFix (blockAtSeqno 4)
      [blockAtSeqno 9, blockAtSeqno 3, blockAtSeqno 2, blockAtSeqno 1] = .data 7 :=
  (c4_theorem queryFix (blockAtSeqno 4)
      [blockAtSeqno 9, blockAtSeqno 3, blockAtSeqno 2, blockAtSeqno 1]).2.2
    7 [blockAtSeqno 3, blockAtSeqno 2] (blockAtSeqno 1) [] rfl (by decide)
    (by decide) rfl

/-- Claim C10 witness: with threshold `5`, a failed refresh is stored with the
current instant both from an empty cache and over a stale entry, and a later
call within the threshold returns the same stored error without a network
request. -/
theorem c10_witness :
    getLastBlock 5 none 10 (.error (.adnl "boom")) =
      (.error (.adnlError "boom"), some (.error (.adnlError "boom"), 10), true)
    ∧ getLastBlock 5 (some (.ok blockFixture, 0)) 10 (.error (.adnl "boom")) =
        (.error (.adnlError "boom"), some (.error (.adnlError "boom"), 10), true)
    ∧ getLastBlock 5 (some (.error (.adnlError "boom"), 10)) 11 (.ok blockFixture) =
        (.error (.adnlError "boom"), some (.error (.adnlError "boom"), 10), false) :=
  ⟨(c10_theorem 5 0 10 11 (.adnl "boom") (.adnlError "boom") (.ok blockFixture) (by decide)).1,
   (c10_theorem 5 0 10 11 (.adnl "boom") (.adnlError "boom") (.ok blockFixture)
      (by decide)).2.1 (.ok blockFixture) (by decide),
   (c10_theorem 5 0 10 11 (.adnl "boom") (.adnlError "boom") (.ok blockFixture)
      (by decide)).2.2⟩

/-- Support for the C6 verdict: the pooled client's `LastBlock::get_last_block`
(`src/lib.rs`, guard `now.duration_since(*last) < self.threshold`) does return
the cached value with no network request while the entry is fresh — the FFI
crate's inverted guard is the slip, not the design. -/
theorem getLastBlock_fresh_cached (threshold t now : Nat)
    (r : Except TonlibError BlockIdExt) (fetch : Except FailureError BlockIdExt)
    (h : now - t < threshold) :
    getLastBlock threshold (some (r, t)) now fetch = (r, some (r, t), false) := by
  simp [getLastBlock, if_pos h]

/-- Support for the C6 verdict: two consecutive `get_last_block` calls whose
second happens within the threshold of the first never both hit the network —
if the first call issued a request, the second is served from the cache. -/
theorem getLastBlock_at_most_one_request (threshold now1 now2 : Nat)
    (st : LastBlockState) (f1 f2 : Except FailureError BlockIdExt)
    (h : now2 - now1 < threshold)
    (hused : (getLastBlock threshold st now1 f1).2.2 = true) :
    (getLastBlock threshold (getLastBlock threshold st now1 f1).2.1 now2 f2).2.2 = false := by
  rcases st with _ | ⟨r, t⟩
  · simp [getLastBlock, if_pos h]
  · by_cases hf : now1 - t < threshold
    · simp [getLastBlock, if_pos hf] at hused
    · simp [getLastBlock, if_neg hf, if_pos h]

/-- Support witness: a concrete two-call trace with one network request. -/
theorem getLastBlock_at_most_one_request_witness :
    (getLastBlock 5 (getLastBlock 5 none 10 (.ok blockFixture)).2.1 12 (.ok blockFixture2)).2.2
      = false :=
  getLastBlock_at_most_one_request 5 10 12 none (.ok blockFixture) (.ok blockFixture2)
    (by decide) rfl

end Tonlib
